import Mathlib

/-!
# Verification of `moviepy/video/tools/subtitles.py`

A shallow embedding of the subtitle-track module: the cue timeline, the lazy
memoized render cache (`self.textclips`), the frame resolver
(`add_textclip_if_none` / `make_frame` / `make_mask_frame`), sub-range
extraction (`in_subclip`), plain-text serialization (`__str__`), the plain
subtitle-file parser (`file_to_subtitles`), the styled word-layout renderer
(the default `make_textclip` in `ssrt` mode) and the mask probe performed by
`__init__`.

Times are embedded as rationals (`ℚ`); Python text as `String`; the
insertion-ordered `dict` cache as an association list; exceptions as
`Except String`.  Renderer invocations are made observable by returning,
next to the result, the list of arguments the renderer was called with.
-/

namespace Subtitles

/-- A cue interval `(start, end)` in seconds. -/
abbrev Interval : Type := ℚ × ℚ

/-- A plain-text cue `((text_start, text_end), text)`, the element shape of
`self.subtitles` on the `ssrt=False` path. -/
abbrev Cue : Type := Interval × String

/-- The alpha-mask clip attached to a rendered clip: queried by time via
`.get_frame(t)`. -/
structure Mask where
  get_frame : ℚ → List (List ℚ)

/-- A rendered clip (the `TextClip` / `CompositeVideoClip` artifact): a frame
per time plus an optional mask clip. -/
structure Artifact where
  get_frame : ℚ → List (List (List ℤ))
  mask : Option Mask

/-- An RGB frame, the `numpy` array returned by `get_frame`. -/
abbrev Frame : Type := List (List (List ℤ))

/-- A single-channel mask frame. -/
abbrev MaskFrame : Type := List (List ℚ)

/-- `self.textclips`: the render cache, a `dict` from cue to rendered clip.
Python dicts preserve insertion order, hence an association list to which
new entries are appended at the end. -/
abbrev Cache : Type := List (Cue × Artifact)

/-- Dict lookup (`self.textclips[sub]`, `sub in self.textclips.keys()`):
structural equality on the `((start, end), text)` key. -/
def cacheLookup : Cache → Cue → Option Artifact
  | [], _ => none
  | (k, v) :: rest, c => if k = c then some v else cacheLookup rest c

/-- The membership test of the two list comprehensions in
`add_textclip_if_none`: `text_start <= t < text_end` (right-open). -/
def containsTime (c : Cue) (t : ℚ) : Bool :=
  decide (c.1.1 ≤ t ∧ t < c.1.2)

/-- Lines 140-153 of `add_textclip_if_none`: build the list of cached cues
covering `t`; if it is empty, fall back to the list of timeline cues covering
`t`; if that is empty too return `False` (here `none`), else take `sub[0]`. -/
def resolve_active (subtitles : List Cue) (cachedKeys : List Cue) (t : ℚ) :
    Option Cue :=
  let sub := cachedKeys.filter fun c => containsTime c t
  let sub := if sub.isEmpty then subtitles.filter fun c => containsTime c t else sub
  sub.head?

/-- `add_textclip_if_none` (lines 135-164, `ssrt=False` branch).  Returns the
resolved cue (`sub`, or `none` for Python `False`), the updated cache, and the
trace of arguments passed to `self.make_textclip` during the call.  A renderer
exception propagates (`Except.error`); the cache assignment
`self.textclips[sub] = ...` sits after the renderer call, so on error the
cache is returned unchanged. -/
def add_textclip_if_none (subtitles : List Cue)
    (make_textclip : String → Except String Artifact)
    (textclips : Cache) (t : ℚ) :
    Except String (Option Cue) × Cache × List String :=
  match resolve_active subtitles (textclips.map Prod.fst) t with
  | none => (.ok none, textclips, [])
  | some sub =>
    if (cacheLookup textclips sub).isSome then
      (.ok (some sub), textclips, [])
    else
      match make_textclip sub.2 with
      | .error e => (.error e, textclips, [sub.2])
      | .ok a => (.ok (some sub), textclips ++ [(sub, a)], [sub.2])

/-- `make_frame` (lines 166-168): `self.textclips[sub].get_frame(t)` when a
cue is active, else the single-pixel black frame `np.array([[[0, 0, 0]]])`. -/
def make_frame (subtitles : List Cue)
    (make_textclip : String → Except String Artifact)
    (textclips : Cache) (t : ℚ) :
    Except String Frame × Cache × List String :=
  match add_textclip_if_none subtitles make_textclip textclips t with
  | (.error e, tc, calls) => (.error e, tc, calls)
  | (.ok none, tc, calls) => (.ok [[[0, 0, 0]]], tc, calls)
  | (.ok (some sub), tc, calls) =>
    match cacheLookup tc sub with
    | some a => (.ok (a.get_frame t), tc, calls)
    | none => (.error "KeyError", tc, calls)

/-- `make_mask_frame` (lines 170-172): `self.textclips[sub].mask.get_frame(t)`
when a cue is active, else the single-pixel zero mask `np.array([[0]])`.
Accessing `.get_frame` on a `None` mask is an `AttributeError`. -/
def make_mask_frame (subtitles : List Cue)
    (make_textclip : String → Except String Artifact)
    (textclips : Cache) (t : ℚ) :
    Except String MaskFrame × Cache × List String :=
  match add_textclip_if_none subtitles make_textclip textclips t with
  | (.error e, tc, calls) => (.error e, tc, calls)
  | (.ok none, tc, calls) => (.ok [[0]], tc, calls)
  | (.ok (some sub), tc, calls) =>
    match cacheLookup tc sub with
    | some a =>
      match a.mask with
      | some m => (.ok (m.get_frame t), tc, calls)
      | none => (.error "AttributeError", tc, calls)
    | none => (.error "KeyError", tc, calls)

/-- `is_in_subclip` inside `in_subclip` (lines 184-188):
`(start_time <= t1 < end_time) or (start_time < t2 <= end_time)`, with the
whole expression wrapped in `try/except: return False`.  A comparison against
an unset (`None`) bound raises `TypeError`, so whenever either bound is
`None` every evaluation path either raises (caught, `False`) or yields
`False`. -/
def is_in_subclip (start_time end_time : Option ℚ) (t1 t2 : ℚ) : Bool :=
  match start_time, end_time with
  | some s, some e => decide ((s ≤ t1 ∧ t1 < e) ∨ (s < t2 ∧ t2 ≤ e))
  | _, _ => false

/-- `try_cropping` inside `in_subclip` (lines 190-194):
`max(t1, start_time), min(t2, end_time)` wrapped in
`try/except: return t1, t2`; `max`/`min` against `None` raises, so any unset
bound leaves the pair uncropped. -/
def try_cropping (start_time end_time : Option ℚ) (t1 t2 : ℚ) : ℚ × ℚ :=
  match start_time, end_time with
  | some s, some e => (max t1 s, min t2 e)
  | _, _ => (t1, t2)

/-- `in_subclip` (lines 178-200): the list comprehension
`[(try_cropping(t1, t2), txt) for ((t1, t2), txt) in self.subtitles
  if is_in_subclip(t1, t2)]`. -/
def in_subclip (subtitles : List Cue) (start_time end_time : Option ℚ) :
    List Cue :=
  (subtitles.filter fun c => is_in_subclip start_time end_time c.1.1 c.1.2).map
    fun c => (try_cropping start_time end_time c.1.1 c.1.2, c.2)

/-- The spec's `sub_range(start, end)` (section 4.1, both bounds given):
keep every cue with `start <= t1 < end` or `start < t2 <= end` and clamp its
interval to `(max(t1, start), min(t2, end))`. -/
def sub_range_spec (subtitles : List Cue) (s e : ℚ) : List Cue :=
  (subtitles.filter fun c =>
      decide ((s ≤ c.1.1 ∧ c.1.1 < e) ∨ (s < c.1.2 ∧ c.1.2 ≤ e))).map
    fun c => ((max c.1.1 s, min c.1.2 e), c.2)

/-- Modelled from the spec: `convert_to_seconds` lives in `moviepy.tools`,
which is not among the sources.  Per section 4.4 it converts a timestamp to
seconds; applied to a value that is already a number of seconds (as `__str__`
does at lines 211-212) it yields that same number of seconds. -/
def convert_to_seconds_num (t : ℚ) : ℚ := t

/-- Python `str()` of a float holding an integral value, as produced for the
subtitle times parsed from a file: `str(2.0) = "2.0"`.  Times with a
non-trivial denominator do not occur at the inputs of the theorems below;
for them this returns a fraction spelling. -/
def pyFloatRepr (q : ℚ) : String :=
  if q.den = 1 then
    (if q.num < 0 then "-" ++ Nat.repr q.num.natAbs else Nat.repr q.num.natAbs) ++ ".0"
  else
    Nat.repr q.num.natAbs ++ "/" ++ Nat.repr q.den

/-- `to_srt` inside `__str__` (lines 209-213):
`"%s - %s\n%s" % (convert_to_seconds(start), convert_to_seconds(end), text)`.
`%s` interpolates the `str()` of the (numeric) converted value. -/
def to_srt (sub : Cue) : String :=
  pyFloatRepr (convert_to_seconds_num sub.1.1) ++ " - " ++
    pyFloatRepr (convert_to_seconds_num sub.1.2) ++ "\n" ++ sub.2

/-- Joins rendered blocks with a separator, `sep.join(...)`. -/
def joinSep (sep : String) : List String → String
  | [] => ""
  | [s] => s
  | s :: rest => s ++ sep ++ joinSep sep rest

/-- `__str__` (lines 208-215): `"\n\n".join(to_srt(sub) for sub in self.subtitles)`. -/
def subtitles_str (subtitles : List Cue) : String :=
  joinSep "\n\n" (subtitles.map to_srt)

/-- Zero-pad a number to two digits, for the spec's `HH:MM:SS,mmm` format. -/
def pad2 (n : ℕ) : String :=
  if n < 10 then "0" ++ Nat.repr n else Nat.repr n

/-- Zero-pad a number to three digits, for the spec's `HH:MM:SS,mmm` format. -/
def pad3 (n : ℕ) : String :=
  if n < 10 then "00" ++ Nat.repr n
  else if n < 100 then "0" ++ Nat.repr n else Nat.repr n

/-- The spec's fixed timestamp format `HH:MM:SS,mmm` (sections 4.1 and 4.4)
for a nonnegative time in seconds. -/
def srtTimestamp (q : ℚ) : String :=
  let ms : ℕ := q.num.toNat * 1000 / q.den
  pad2 (ms / 3600000) ++ ":" ++ pad2 (ms / 60000 % 60) ++ ":" ++
    pad2 (ms / 1000 % 60) ++ "," ++ pad3 (ms % 1000)

/-- The spec's `to_text_representation()` (section 4.1): blocks
`"<formatted_start> - <formatted_end>\n<text>"` separated by a blank line,
timestamps in the fixed `HH:MM:SS,mmm` format. -/
def to_text_representation_spec (subtitles : List Cue) : String :=
  joinSep "\n\n" (subtitles.map fun sub =>
    srtTimestamp sub.1.1 ++ " - " ++ srtTimestamp sub.1.2 ++ "\n" ++ sub.2)

/-- Greedy run of ASCII digits, the `[0-9]*` pieces of the timestamp regex. -/
def spanDigits : List Char → List Char × List Char
  | [] => ([], [])
  | c :: cs =>
    if c.isDigit then
      let (d, r) := spanDigits cs
      (c :: d, r)
    else ([], c :: cs)

/-- One attempted match of the pattern `[0-9]*:[0-9]*:[0-9]*,[0-9]*` at the
head of the character list, returning the matched characters and the rest.
The digit runs are greedy; since no shorter digit run can expose the required
`:` or `,`, greedy matching coincides with the regex engine's backtracking. -/
def matchTime (cs : List Char) : Option (List Char × List Char) :=
  let (d1, r1) := spanDigits cs
  match r1 with
  | ':' :: r1b =>
    let (d2, r2) := spanDigits r1b
    match r2 with
    | ':' :: r2b =>
      let (d3, r3) := spanDigits r2b
      match r3 with
      | ',' :: r3b =>
        let (d4, r4) := spanDigits r3b
        some (d1 ++ ':' :: (d2 ++ ':' :: (d3 ++ ',' :: d4)), r4)
      | _ => none
    | _ => none
  | _ => none

/-- Left-to-right scan of `re.findall`: try a match at each position, emit it
and continue after its end, else advance one character.  Every match consumes
at least its `:`/`:`/`,` characters, so fuel equal to the text length
suffices. -/
def findTimesAux : ℕ → List Char → List String
  | 0, _ => []
  | _ + 1, [] => []
  | fuel + 1, c :: cs =>
    match matchTime (c :: cs) with
    | some (m, rest) => String.mk m :: findTimesAux fuel rest
    | none => findTimesAux fuel cs

/-- `re.findall("([0-9]*:[0-9]*:[0-9]*,[0-9]*)", line)` (line 244). -/
def findTimes (line : String) : List String :=
  findTimesAux line.toList.length line.toList

/-- The whitespace characters stripped by Python's `str.strip()`. -/
def isSpaceChar (c : Char) : Bool :=
  c = ' ' || c = '\t' || c = '\n' || c = '\r' || c = '\x0b' || c = '\x0c'

/-- `line.strip() == ""` (line 247): every character is whitespace. -/
def isBlank (line : String) : Bool :=
  line.toList.all isSpaceChar

/-- Splits a character list at a separator, `str.split(sep)` semantics. -/
def splitOnChar (sep : Char) (cs : List Char) : List (List Char) :=
  cs.foldr
    (fun c acc =>
      match acc with
      | g :: gs => if c = sep then [] :: g :: gs else (c :: g) :: gs
      | [] => [[c]])
    [[]]

/-- Numeric value of a digit run (empty run counts as zero; the matched
timestamps in the theorems below always carry digits). -/
def digitsToNat (cs : List Char) : ℕ :=
  cs.foldl (fun n c => 10 * n + (c.toNat - 48)) 0

/-- Modelled from the spec: `convert_to_seconds` (`moviepy.tools`, not among
the sources) on a matched `HH:MM:SS,mmm` timestamp string (section 4.4):
`3600*HH + 60*MM + SS + mmm/1000` seconds. -/
def convert_to_seconds (s : String) : ℚ :=
  match splitOnChar ':' s.toList with
  | [h, m, rest] =>
    match splitOnChar ',' rest with
    | [sec, ms] =>
      3600 * (digitsToNat h : ℚ) + 60 * (digitsToNat m : ℚ) +
        (digitsToNat sec : ℚ) + (digitsToNat ms : ℚ) / 1000
    | _ => 0
  | _ => 0

/-- The loop state of `file_to_subtitles` (lines 238-240): the accumulated
`times_texts`, `current_times` (`None` or the parsed times of the open block)
and `current_text`. -/
structure ParseState where
  times_texts : List (Option (List ℚ) × String)
  current_times : Option (List ℚ)
  current_text : String

/-- `current_text.strip("\n")`: drop newline characters from both ends. -/
def stripNewlines (s : String) : String :=
  String.mk (((s.toList.dropWhile fun c => c = '\n').reverse.dropWhile
    fun c => c = '\n').reverse)

/-- One iteration of the `for line in f` loop of `file_to_subtitles`
(lines 243-251).  `line` is a file line without its trailing newline; the
Python `current_text += line` keeps the newline, hence `++ line ++ "\n"`
here.  The `elif current_times:` test is Python truthiness: `None` and the
empty list are falsy. -/
def processLine (st : ParseState) (line : String) : ParseState :=
  let times := findTimes line
  if !times.isEmpty then
    { st with current_times := some (times.map convert_to_seconds) }
  else if isBlank line then
    { times_texts :=
        st.times_texts ++ [(st.current_times, stripNewlines st.current_text)],
      current_times := none, current_text := "" }
  else
    match st.current_times with
    | some ts =>
      if ts.isEmpty then st
      else { st with current_text := st.current_text ++ line ++ "\n" }
    | none => st

/-- The initial state of the `file_to_subtitles` loop. -/
def initParseState : ParseState := ⟨[], none, ""⟩

/-- `file_to_subtitles` (lines 229-253) on the file's lines: fold the loop
body and return `times_texts`.  There is no flush after the loop. -/
def file_to_subtitles (lines : List String) : List (Option (List ℚ) × String) :=
  (lines.foldl processLine initParseState).times_texts

/-- A word-style record of the styled (`ssrt`) format, section 3 of the
spec.  Only `text` and the keys read by `TextClip` appear; the optional keys
default as in lines 82-95. -/
structure WordStyle where
  text : String
  font : String
  size : ℕ
  color : String
  stroke_color : Option String := none
  stroke_width : ℚ := 1
  bg_color : Option String := none
deriving DecidableEq

/-- A word clip placed into the styled composite: `set_position((x, "top"))`
plus the clip's own width and height. -/
structure Placed where
  x : ℕ
  y : String
  w : ℕ
  h : ℕ

/-- The `CompositeVideoClip(text_clips, size=(current_x_offset,
text_clips[0].h))` result of the styled renderer: the placed word clips and
the composite size. -/
structure Composite where
  clips : List Placed
  width : ℕ
  height : ℕ

/-- The loop of the default styled `make_textclip` (lines 79-117) after the
first word.  `x` is the offset of the previous word, `prevW` its width; each
further word is placed at `current_x_offset += text_clips[i-1].w` and the
final iteration also adds its own width (`if i == len(sub_style)-1`), giving
the returned total.  `dims` stands for the external `TextClip` rasterizer,
observed only through the width and height of the clip it returns. -/
def layoutRest (dims : WordStyle → ℕ × ℕ) :
    List WordStyle → ℕ → ℕ → List Placed × ℕ
  | [], x, prevW => ([], x + prevW)
  | w :: ws, x, prevW =>
    let rest := layoutRest dims ws (x + prevW) (dims w).1
    (⟨x + prevW, "top", (dims w).1, (dims w).2⟩ :: rest.1, rest.2)

/-- The default styled `make_textclip` (lines 66-118) on a word list: word 0
at `(0, "top")`, the rest via `layoutRest`, composite size
`(current_x_offset, text_clips[0].h)`.  An empty word list hits
`text_clips[0]` on an empty list (`IndexError`), hence `none`. -/
def make_textclip_styled (dims : WordStyle → ℕ × ℕ) :
    List WordStyle → Option Composite
  | [] => none
  | w0 :: ws =>
    let rest := layoutRest dims ws 0 (dims w0).1
    some ⟨⟨0, "top", (dims w0).1, (dims w0).2⟩ :: rest.1, rest.2, (dims w0).2⟩

/-- The claimed placement offsets: entry `i` is the sum of the widths of the
words before `i`. -/
def offsetSums (l : List ℕ) : List ℕ :=
  (List.range l.length).map fun i => (l.take i).sum

/-- The argument passed to `make_textclip`: the styled branch hands it either
a plain string (the `isinstance(sub_style, str)` branch, also taken by the
`"T"` probe) or a word-style list. -/
inductive SubArg where
  | str : String → SubArg
  | styles : List WordStyle → SubArg
deriving DecidableEq

/-- The observable outcome of `SubtitlesClip.__init__` (lines 45-176) with a
literal cue list and a user-supplied `make_textclip`. -/
structure InitState where
  textclips : Cache
  start : ℚ
  duration : Option ℚ
  hasmask : Bool
  render_calls : List SubArg

/-- `__init__` tail (lines 61-176): `self.textclips = dict()`, `self.start =
0`, `self.duration = max([tb for ((ta, tb), txt) in self.subtitles])`
(`max` of an empty list raises, hence `Option`), then the unconditional
line 175 probe `hasmask = bool(self.make_textclip("T").mask)`.
`render_calls` records every `make_textclip` invocation made by `__init__`:
exactly the probe, on the literal string `"T"`, in plain and in `ssrt` mode
alike; its result is bound to a local and never stored in `textclips`. -/
def subtitlesclip_init (ssrt : Bool) (subtitles : List Cue)
    (make_textclip : SubArg → Artifact) : InitState :=
  let duration := (subtitles.map fun c => c.1.2).max?
  let probe := make_textclip (SubArg.str "T")
  { textclips := [], start := 0, duration := duration,
    hasmask := probe.mask.isSome, render_calls := [SubArg.str "T"] }

/-- A concrete artifact for the witnesses below. -/
def demoArtifact : Artifact := ⟨fun _ => [[[7, 7, 7]]], none⟩

/-- A concrete renderer that always succeeds. -/
def demoRender : String → Except String Artifact := fun _ => .ok demoArtifact

/-- A concrete renderer that always raises. -/
def failRender : String → Except String Artifact := fun _ => .error "boom"

/-- A concrete cue for the witnesses below. -/
def demoCue : Cue := ((0, 2), "x")

/-- Concrete word styles of widths 30 and 45 for the styled-layout witness. -/
def demoWordA : WordStyle := { text := "aa ", font := "Georgia", size := 30, color := "white" }

/-- Second concrete word style for the styled-layout witness. -/
def demoWordB : WordStyle := { text := "bbb ", font := "Georgia", size := 45, color := "red" }

/-- A rasterizer stub for the styled-layout witness: width from the style's
`size`, height 12. -/
def demoDims : WordStyle → ℕ × ℕ := fun w => (w.size, 12)

theorem head?_filter_eq_find? {α : Type} (p : α → Bool) (l : List α) :
    (l.filter p).head? = l.find? p := by
  induction l with
  | nil => rfl
  | cons a l ih =>
    by_cases h : p a
    · simp [List.filter_cons, h, List.find?_cons_of_pos]
    · simp [List.filter_cons, h, List.find?_cons_of_neg, ih]

theorem find?_append_of_none {α : Type} (p : α → Bool) (l₁ l₂ : List α)
    (h : l₁.find? p = none) : (l₁ ++ l₂).find? p = l₂.find? p := by
  induction l₁ with
  | nil => rfl
  | cons a l ih =>
    by_cases hpa : p a
    · rw [List.find?_cons_of_pos _ hpa] at h
      exact absurd h (by simp)
    · rw [List.cons_append, List.find?_cons_of_neg _ hpa]
      rw [List.find?_cons_of_neg _ hpa] at h
      exact ih h

theorem resolve_active_find? (subtitles keys : List Cue) (t : ℚ) :
    resolve_active subtitles keys t =
      match keys.find? (fun c => containsTime c t) with
      | some c => some c
      | none => subtitles.find? fun c => containsTime c t := by
  unfold resolve_active
  rw [← head?_filter_eq_find? (fun c => containsTime c t) keys,
    ← head?_filter_eq_find? (fun c => containsTime c t) subtitles]
  cases hf : keys.filter fun c => containsTime c t <;> simp

theorem cacheLookup_isSome_iff (l : Cache) (c : Cue) :
    (cacheLookup l c).isSome = true ↔ c ∈ l.map Prod.fst := by
  induction l with
  | nil => simp [cacheLookup]
  | cons kv rest ih =>
    obtain ⟨k, v⟩ := kv
    by_cases h : k = c
    · subst h; simp [cacheLookup]
    · simp [cacheLookup, h, ih, Ne.symm h]

theorem cacheLookup_append_left (l l₂ : Cache) (c : Cue) (a : Artifact)
    (h : cacheLookup l c = some a) : cacheLookup (l ++ l₂) c = some a := by
  induction l with
  | nil => simp [cacheLookup] at h
  | cons kv rest ih =>
    obtain ⟨k, v⟩ := kv
    by_cases hk : k = c
    · rw [cacheLookup, if_pos hk] at h
      rw [List.cons_append, cacheLookup, if_pos hk]
      exact h
    · rw [cacheLookup, if_neg hk] at h
      rw [List.cons_append, cacheLookup, if_neg hk]
      exact ih h

theorem cacheLookup_append_of_none (l l₂ : Cache) (c : Cue)
    (h : cacheLookup l c = none) :
    cacheLookup (l ++ l₂) c = cacheLookup l₂ c := by
  induction l with
  | nil => rfl
  | cons kv rest ih =>
    obtain ⟨k, v⟩ := kv
    by_cases hk : k = c
    · rw [cacheLookup, if_pos hk] at h
      exact absurd h (by simp)
    · rw [List.cons_append, cacheLookup, if_neg hk]
      rw [cacheLookup, if_neg hk] at h
      exact ih h

/-- C2: when several cues' right-open intervals contain `t`, the resolver
returns the first already-rendered cue (a key of the cache, in cache
insertion order) covering `t`; if no cached cue covers `t`, the first cue in
timeline order covering `t`; and if no cue covers `t` at all, `none`.  Being
an equation between pure functions, the choice is deterministic for
identical inputs. -/
theorem C2_resolution_order (subtitles : List Cue) (cache : Cache) (t : ℚ) :
    resolve_active subtitles (cache.map Prod.fst) t =
      match (cache.map Prod.fst).find? (fun c => containsTime c t) with
      | some c => some c
      | none => subtitles.find? fun c => containsTime c t :=
  resolve_active_find? subtitles (cache.map Prod.fst) t

/-- C6: with both bounds given, `in_subclip` returns, in original order,
exactly the cues overlapping `[start, end)` under the disjunction
`start <= t1 < end or start < t2 <= end`, each clamped to
`(max(t1, start), min(t2, end))`; in particular the spec's worked example
holds. -/
theorem C6_sub_range_clamped :
    (∀ (subtitles : List Cue) (s e : ℚ),
        in_subclip subtitles (some s) (some e) = sub_range_spec subtitles s e) ∧
      in_subclip [((0, 5), "a"), ((5, 10), "b"), ((10, 15), "c")]
          (some 3) (some 12) =
        [((3, 5), "a"), ((5, 10), "b"), ((10, 12), "c")] := by
  constructor
  · intro subtitles s e
    rfl
  · decide

/-- C3 counterexample: with both bounds unspecified `in_subclip` does not
pass every cue through unchanged — on the one-cue timeline `[((0,5),"a")]`
it returns the empty list instead. -/
theorem C3_counterexample :
    in_subclip [((0, 5), "a")] none none ≠ [((0, 5), "a")] := by decide

/-- C3 amended: if either bound is unspecified (`None`), the
exception-guarded overlap test `is_in_subclip` returns `False` for every
cue — the comparison against the unset bound raises `TypeError`, which the
`except` turns into `False` — so `in_subclip` returns the empty list rather
than degrading to pass-through. -/
theorem C3_none_bound_empty (subtitles : List Cue) (s e : Option ℚ)
    (h : s = none ∨ e = none) :
    in_subclip subtitles s e = [] := by
  have hfalse : ∀ c : Cue, is_in_subclip s e c.1.1 c.1.2 = false := by
    intro c
    rcases h with h | h
    · subst h; rfl
    · subst h; cases s <;> rfl
  have hfilt : (subtitles.filter fun c => is_in_subclip s e c.1.1 c.1.2) = [] :=
    List.filter_eq_nil_iff.mpr fun c _ => by simp [hfalse c]
  rw [in_subclip, hfilt]
  rfl

theorem C3_none_bound_empty_witness :
    ((some (1 : ℚ) = none ∨ (none : Option ℚ) = none) ∧
        in_subclip [((0, 5), "a")] (some 1) none = []) ∧
      ((none : Option ℚ) = none ∨ some (7 : ℚ) = none) ∧
        in_subclip [((0, 5), "a")] none (some 7) = [] :=
  ⟨⟨Or.inr rfl, C3_none_bound_empty [((0, 5), "a")] (some 1) none (Or.inr rfl)⟩,
    Or.inl rfl, C3_none_bound_empty [((0, 5), "a")] none (some 7) (Or.inl rfl)⟩

/-- C4 (code bug): `__str__` formats each bound with `convert_to_seconds`,
which on a numeric time returns the number of seconds unchanged, so the
serialized block carries raw seconds (`"2.0 - 4.0\nhi"`) and not the fixed
`HH:MM:SS,mmm` wire format the spec (and `write_srt`'s own docstring, which
promises an `.srt` file) requires. -/
theorem C4_str_raw_seconds :
    subtitles_str [((2, 4), "hi")] = "2.0 - 4.0\nhi" ∧
      to_text_representation_spec [((2, 4), "hi")] =
        "00:00:02,000 - 00:00:04,000\nhi" ∧
      subtitles_str [((2, 4), "hi")] ≠
        to_text_representation_spec [((2, 4), "hi")] := by
  refine ⟨?_, ?_, ?_⟩ <;> decide

/-- C10: `__init__` invokes the renderer exactly once, at construction time,
on the literal string `"T"` (not on any cue of the timeline and regardless
of the `ssrt` mode flag), to probe for a mask; the probe's artifact is not
stored in the render cache, which is still empty when construction
finishes. -/
theorem C10_construction_probe (ssrt : Bool) (subtitles : List Cue)
    (make_textclip : SubArg → Artifact) :
    (subtitlesclip_init ssrt subtitles make_textclip).render_calls =
        [SubArg.str "T"] ∧
      (subtitlesclip_init ssrt subtitles make_textclip).textclips = [] ∧
      (subtitlesclip_init ssrt subtitles make_textclip).hasmask =
        (make_textclip (SubArg.str "T")).mask.isSome :=
  ⟨rfl, rfl, rfl⟩

theorem add_textclip_preserves (subtitles : List Cue)
    (r : String → Except String Artifact) (cache : Cache) (t : ℚ)
    (c : Cue) (a : Artifact) (ha : cacheLookup cache c = some a) :
    cacheLookup (add_textclip_if_none subtitles r cache t).2.1 c = some a ∧
      ((add_textclip_if_none subtitles r cache t).1 = .ok (some c) →
        (add_textclip_if_none subtitles r cache t).2.2 = []) := by
  cases hres : resolve_active subtitles (cache.map Prod.fst) t with
  | none =>
    rw [add_textclip_if_none, hres]
    exact ⟨ha, fun _ => rfl⟩
  | some s =>
    by_cases hlk : (cacheLookup cache s).isSome
    · rw [add_textclip_if_none, hres]
      dsimp only
      rw [if_pos hlk]
      exact ⟨ha, fun _ => rfl⟩
    · have hsc : s ≠ c := by
        intro heq
        rw [heq] at hlk
        exact hlk (by simp [ha])
      cases hr : r s.2 with
      | error e =>
        rw [add_textclip_if_none, hres]
        dsimp only
        rw [if_neg hlk, hr]
        exact ⟨ha, fun hcon => absurd hcon (by simp)⟩
      | ok a2 =>
        rw [add_textclip_if_none, hres]
        dsimp only
        rw [if_neg hlk, hr]
        refine ⟨cacheLookup_append_left cache [(s, a2)] c a ha, fun hcon => ?_⟩
        injection hcon with hcon
        injection hcon with hcon
        exact absurd hcon hsc

/-- C1: idempotent memoization.  If a query at `t` resolves and returns cue
`c` with cache `cache₁`, then (i) repeating the query from `cache₁` returns
the same cue against the unchanged cache with no renderer invocation, so the
served artifact — `cacheLookup cache₁ c`, which exists — is identical both
times; (ii) `c`'s cache entry survives every later query unchanged (never
evicted, never updated) and any later query that serves `c` performs no
renderer invocation at all, so the renderer runs at most once for `c`;
(iii) the first call either hit the cache (no invocation) or invoked the
renderer exactly once for `c` and appended the result. -/
theorem C1_memoization (subtitles : List Cue)
    (r : String → Except String Artifact) (cache : Cache) (t : ℚ)
    (c : Cue) (cache₁ : Cache) (tr : List String)
    (h : add_textclip_if_none subtitles r cache t = (.ok (some c), cache₁, tr)) :
    add_textclip_if_none subtitles r cache₁ t = (.ok (some c), cache₁, []) ∧
      (∃ a, cacheLookup cache₁ c = some a ∧
        ∀ t' : ℚ,
          cacheLookup (add_textclip_if_none subtitles r cache₁ t').2.1 c =
              some a ∧
            ((add_textclip_if_none subtitles r cache₁ t').1 = .ok (some c) →
              (add_textclip_if_none subtitles r cache₁ t').2.2 = [])) ∧
      ((cache₁ = cache ∧ tr = []) ∨
        ∃ a, r c.2 = .ok a ∧ cacheLookup cache c = none ∧
          cache₁ = cache ++ [(c, a)] ∧ tr = [c.2]) := by
  cases hres : resolve_active subtitles (cache.map Prod.fst) t with
  | none => rw [add_textclip_if_none, hres] at h; dsimp only at h; simp at h
  | some s =>
    by_cases hlk : (cacheLookup cache s).isSome
    · rw [add_textclip_if_none, hres] at h
      dsimp only at h
      rw [if_pos hlk] at h
      simp only [Prod.mk.injEq, Except.ok.injEq, Option.some.injEq] at h
      obtain ⟨hsc, hcache, htr⟩ := h
      subst hsc; subst hcache; subst htr
      obtain ⟨a, ha⟩ := Option.isSome_iff_exists.mp hlk
      refine ⟨?_,
        ⟨a, ha, fun t' => add_textclip_preserves subtitles r cache t' s a ha⟩,
        Or.inl ⟨rfl, rfl⟩⟩
      rw [add_textclip_if_none, hres]
      dsimp only
      rw [if_pos hlk]
    · cases hr : r s.2 with
      | error e =>
        rw [add_textclip_if_none, hres] at h
        dsimp only at h
        rw [if_neg hlk, hr] at h
        dsimp only at h
        simp at h
      | ok a =>
        rw [add_textclip_if_none, hres] at h
        dsimp only at h
        rw [if_neg hlk, hr] at h
        dsimp only at h
        simp only [Prod.mk.injEq, Except.ok.injEq, Option.some.injEq] at h
        obtain ⟨hsc, hcache, htr⟩ := h
        subst hsc
        have hnone : cacheLookup cache s = none :=
          Option.not_isSome_iff_eq_none.mp hlk
        have hkeys : (cache.map Prod.fst).find? (fun d => containsTime d t) = none := by
          cases hk : (cache.map Prod.fst).find? fun d => containsTime d t with
          | none => rfl
          | some d =>
            rw [resolve_active_find?, hk] at hres
            dsimp only at hres
            injection hres with hds
            have : (cacheLookup cache s).isSome = true :=
              (cacheLookup_isSome_iff cache s).mpr
                (hds ▸ List.mem_of_find?_eq_some hk)
            exact absurd this hlk
        have hpc : containsTime s t = true := by
          rw [resolve_active_find?, hkeys] at hres
          dsimp only at hres
          have h3 := List.find?_some hres
          exact h3
        have hlook : cacheLookup (cache ++ [(s, a)]) s = some a := by
          rw [cacheLookup_append_of_none cache [(s, a)] s hnone]
          simp [cacheLookup]
        have hres2 :
            resolve_active subtitles ((cache ++ [(s, a)]).map Prod.fst) t = some s := by
          rw [resolve_active_find?, List.map_append,
            find?_append_of_none _ _ _ hkeys]
          simp [List.find?_cons_of_pos, hpc]
        subst hcache; subst htr
        refine ⟨?_,
          ⟨a, hlook, fun t' =>
            add_textclip_preserves subtitles r (cache ++ [(s, a)]) t' s a hlook⟩,
          Or.inr ⟨a, hr, hnone, rfl, rfl⟩⟩
        rw [add_textclip_if_none, hres2]
        dsimp only
        rw [if_pos (by simp [hlook])]

theorem C1_memoization_witness :
    add_textclip_if_none [demoCue] demoRender [] 0 =
        (.ok (some demoCue), [(demoCue, demoArtifact)], ["x"]) ∧
      (add_textclip_if_none [demoCue] demoRender [(demoCue, demoArtifact)] 0 =
          (.ok (some demoCue), [(demoCue, demoArtifact)], []) ∧
        (∃ a, cacheLookup [(demoCue, demoArtifact)] demoCue = some a ∧
          ∀ t' : ℚ,
            cacheLookup
                (add_textclip_if_none [demoCue] demoRender
                  [(demoCue, demoArtifact)] t').2.1 demoCue = some a ∧
              ((add_textclip_if_none [demoCue] demoRender
                    [(demoCue, demoArtifact)] t').1 = .ok (some demoCue) →
                (add_textclip_if_none [demoCue] demoRender
                    [(demoCue, demoArtifact)] t').2.2 = [])) ∧
        (([(demoCue, demoArtifact)] : Cache) = [] ∧ (["x"] : List String) = [] ∨
          ∃ a, demoRender demoCue.2 = .ok a ∧ cacheLookup [] demoCue = none ∧
            ([(demoCue, demoArtifact)] : Cache) = [] ++ [(demoCue, a)] ∧
            (["x"] : List String) = [demoCue.2])) :=
  ⟨rfl, C1_memoization [demoCue] demoRender [] 0 demoCue
    [(demoCue, demoArtifact)] ["x"] rfl⟩

/-- C7: if the renderer raises on an unrendered cue resolved at `t`, the
error propagates out of `add_textclip_if_none`, the cache comes back
unchanged (the `self.textclips[sub] = ...` assignment is never reached), the
renderer was invoked exactly once during the failed call (no internal
retry), and a subsequent query from the same cache invokes the renderer for
that cue again — here shown with a second renderer that now succeeds and
gets cached. -/
theorem C7_render_failure (subtitles : List Cue)
    (r r₂ : String → Except String Artifact) (cache : Cache) (t : ℚ)
    (c : Cue) (e : String)
    (hres : resolve_active subtitles (cache.map Prod.fst) t = some c)
    (hmiss : cacheLookup cache c = none)
    (herr : r c.2 = .error e) :
    add_textclip_if_none subtitles r cache t = (.error e, cache, [c.2]) ∧
      ∀ a, r₂ c.2 = .ok a →
        add_textclip_if_none subtitles r₂ cache t =
          (.ok (some c), cache ++ [(c, a)], [c.2]) := by
  have hneg : ¬(cacheLookup cache c).isSome = true := by simp [hmiss]
  constructor
  · rw [add_textclip_if_none, hres]
    dsimp only
    rw [if_neg hneg, herr]
  · intro a ha
    rw [add_textclip_if_none, hres]
    dsimp only
    rw [if_neg hneg, ha]

theorem C7_render_failure_witness :
    resolve_active [demoCue] (([] : Cache).map Prod.fst) 0 = some demoCue ∧
      cacheLookup [] demoCue = none ∧
      failRender demoCue.2 = .error "boom" ∧
      add_textclip_if_none [demoCue] failRender [] 0 =
        (.error "boom", [], [demoCue.2]) ∧
      add_textclip_if_none [demoCue] demoRender [] 0 =
        (.ok (some demoCue), [] ++ [(demoCue, demoArtifact)], [demoCue.2]) :=
  ⟨rfl, rfl, rfl,
    (C7_render_failure [demoCue] failRender demoRender [] 0 demoCue "boom"
      rfl rfl rfl).1,
    (C7_render_failure [demoCue] failRender demoRender [] 0 demoCue "boom"
      rfl rfl rfl).2 demoArtifact rfl⟩

/-- C8: at a time `t` covered by no timeline cue (and no cached cue),
`make_frame` returns the single-pixel black frame `[[[0,0,0]]]` and
`make_mask_frame` the single-pixel zero mask `[[0]]`, both as ordinary `ok`
results (no error), with the cache untouched and the renderer never
invoked. -/
theorem C8_no_active_cue_sentinel (subtitles : List Cue)
    (r : String → Except String Artifact) (cache : Cache) (t : ℚ)
    (hsub : ∀ c ∈ subtitles, containsTime c t = false)
    (hcache : ∀ c ∈ cache.map Prod.fst, c ∈ subtitles) :
    make_frame subtitles r cache t = (.ok [[[0, 0, 0]]], cache, []) ∧
      make_mask_frame subtitles r cache t = (.ok [[0]], cache, []) := by
  have h1 : (cache.map Prod.fst).find? (fun c => containsTime c t) = none :=
    List.find?_eq_none.mpr fun c hc => by simp [hsub c (hcache c hc)]
  have h2 : subtitles.find? (fun c => containsTime c t) = none :=
    List.find?_eq_none.mpr fun c hc => by simp [hsub c hc]
  have hres : resolve_active subtitles (cache.map Prod.fst) t = none := by
    rw [resolve_active_find?, h1, h2]
  have hadd : add_textclip_if_none subtitles r cache t = (.ok none, cache, []) := by
    rw [add_textclip_if_none, hres]
  constructor
  · rw [make_frame, hadd]
  · rw [make_mask_frame, hadd]

theorem C8_no_active_cue_sentinel_witness :
    ((∀ c ∈ [(((2 : ℚ), (4 : ℚ)), "x")], containsTime c 0 = false) ∧
        make_frame [((2, 4), "x")] demoRender [] 0 = (.ok [[[0, 0, 0]]], [], []) ∧
        make_mask_frame [((2, 4), "x")] demoRender [] 0 = (.ok [[0]], [], [])) ∧
      (∀ c ∈ [(((2 : ℚ), (4 : ℚ)), "x")], containsTime c 5 = false) ∧
        make_frame [((2, 4), "x")] demoRender [] 5 = (.ok [[[0, 0, 0]]], [], []) ∧
        make_mask_frame [((2, 4), "x")] demoRender [] 5 = (.ok [[0]], [], []) :=
  ⟨⟨by decide,
      C8_no_active_cue_sentinel [((2, 4), "x")] demoRender [] 0
        (by decide) (by simp)⟩,
    by decide,
    C8_no_active_cue_sentinel [((2, 4), "x")] demoRender [] 5
      (by decide) (by simp)⟩

theorem layoutRest_total (dims : WordStyle → ℕ × ℕ) (ws : List WordStyle)
    (x prevW : ℕ) :
    (layoutRest dims ws x prevW).2 =
      x + prevW + (ws.map fun w => (dims w).1).sum := by
  induction ws generalizing x prevW with
  | nil => simp [layoutRest]
  | cons w ws ih =>
    simp only [layoutRest, List.map_cons, List.sum_cons]
    rw [ih]
    ring

theorem layoutRest_clips (dims : WordStyle → ℕ × ℕ) (ws : List WordStyle)
    (x prevW : ℕ) :
    (layoutRest dims ws x prevW).1.map Placed.x =
        (List.range ws.length).map
          (fun i => x + prevW + ((ws.map fun w => (dims w).1).take i).sum) ∧
      (layoutRest dims ws x prevW).1.map Placed.y =
        List.replicate ws.length "top" := by
  induction ws generalizing x prevW with
  | nil => simp [layoutRest]
  | cons w ws ih =>
    obtain ⟨ih1, ih2⟩ := ih (x + prevW) (dims w).1
    constructor
    · simp only [layoutRest, List.map_cons, List.length_cons,
        List.range_succ_eq_map, List.map_map]
      rw [ih1]
      refine congrArg₂ List.cons ?_ ?_
      · simp
      · refine List.map_congr_left fun i _ => ?_
        simp [List.take_succ_cons]
        ring
    · simp only [layoutRest, List.map_cons, List.length_cons,
        List.replicate_succ]
      rw [ih2]

/-- C9: for a non-empty word list, the default styled renderer places word
`i` at horizontal offset equal to the sum of the widths of words `0..i-1`
(word 0 at offset 0), anchors every word at `"top"`, and the composite's
width is the sum of all word widths while its height is the first word's
height; in particular, for two words of widths 30 and 45, the composite
width is 75 and the offsets are 0 and 30. -/
theorem C9_styled_layout :
    (∀ (dims : WordStyle → ℕ × ℕ) (w0 : WordStyle) (ws : List WordStyle),
        ∃ comp, make_textclip_styled dims (w0 :: ws) = some comp ∧
          comp.width = ((w0 :: ws).map fun w => (dims w).1).sum ∧
          comp.height = (dims w0).2 ∧
          comp.clips.map Placed.x =
            offsetSums ((w0 :: ws).map fun w => (dims w).1) ∧
          comp.clips.map Placed.y = List.replicate (w0 :: ws).length "top") ∧
      make_textclip_styled demoDims [demoWordA, demoWordB] =
        some ⟨[⟨0, "top", 30, 12⟩, ⟨30, "top", 45, 12⟩], 75, 12⟩ := by
  constructor
  · intro dims w0 ws
    obtain ⟨h1, h2⟩ := layoutRest_clips dims ws 0 (dims w0).1
    refine ⟨_, rfl, ?_, rfl, ?_, ?_⟩
    · show (layoutRest dims ws 0 (dims w0).1).2 = _
      rw [layoutRest_total]
      simp
    · show Placed.x ⟨0, "top", (dims w0).1, (dims w0).2⟩ ::
          (layoutRest dims ws 0 (dims w0).1).1.map Placed.x =
        offsetSums ((w0 :: ws).map fun w => (dims w).1)
      rw [h1, offsetSums]
      simp only [List.map_cons, List.length_cons, List.length_map,
        List.range_succ_eq_map, List.map_map]
      refine congrArg₂ List.cons ?_ ?_
      · simp
      · refine List.map_congr_left fun i _ => ?_
        simp [List.take_succ_cons]
    · show Placed.y ⟨0, "top", (dims w0).1, (dims w0).2⟩ ::
          (layoutRest dims ws 0 (dims w0).1).1.map Placed.y =
        List.replicate (w0 :: ws).length "top"
      rw [h2]
      simp [List.replicate_succ]
  · rfl

/-- C5 counterexample: a well-formed plain-format input whose final cue
block is not followed by a trailing blank line loses that final cue —
`file_to_subtitles` returns the empty list on it, while appending the final
blank line yields the cue with text `"Hello"`, so the two parses differ. -/
theorem C5_counterexample :
    file_to_subtitles ["1", "00:00:01,000 --> 00:00:02,000", "Hello"] = [] ∧
      (file_to_subtitles
          (["1", "00:00:01,000 --> 00:00:02,000", "Hello"] ++ [""])).map
        Prod.snd = ["Hello"] ∧
      file_to_subtitles ["1", "00:00:01,000 --> 00:00:02,000", "Hello"] ≠
        file_to_subtitles
          (["1", "00:00:01,000 --> 00:00:02,000", "Hello"] ++ [""]) := by
  refine ⟨rfl, rfl, fun h => ?_⟩
  exact absurd (congrArg List.length h) (by decide)

/-- C5 amended: `file_to_subtitles` emits a cue only when a blank separator
line is read, so a final cue block not followed by a blank line is dropped:
for any input `lines`, parsing `lines ++ [""]` yields exactly the cues of
`lines` plus the still-pending `(current_times, current_text)` block. -/
theorem C5_blank_line_flush (lines : List String) :
    file_to_subtitles (lines ++ [""]) =
      file_to_subtitles lines ++
        [((lines.foldl processLine initParseState).current_times,
          stripNewlines (lines.foldl processLine initParseState).current_text)] := by
  unfold file_to_subtitles
  rw [List.foldl_append]
  rfl

end Subtitles
